import Mathlib

/-!
Shallow embedding of `src/azure-reservation-analysis.py` (ari-reservation-recommend).

Python floats are modelled as rationals; Python strings as `String`;
Python dicts preserving insertion order as association lists with
position-preserving upsert.  Fallible Python code (expressions that can
raise) is modelled with `Option`, where `none` means an exception
propagates.
-/

namespace ARI

/-! ### String primitives

The Python string operations are modelled by structural recursion over
the character list of a `String` (the data this program handles is
ASCII). -/

/-- ASCII lowercasing of one character (Python `str.lower` restricted to
the ASCII range). -/
def lowerChar (c : Char) : Char :=
  if 65 ≤ c.toNat && c.toNat ≤ 90 then Char.ofNat (c.toNat + 32) else c

/-- Python `str.lower()`. -/
def toLowerS (s : String) : String :=
  ⟨s.data.map lowerChar⟩

/-- Python `str.strip()`: drop whitespace from both ends. -/
def trimS (s : String) : String :=
  ⟨((s.data.dropWhile Char.isWhitespace).reverse.dropWhile Char.isWhitespace).reverse⟩

/-- Whether `pat` is a prefix of `l`. -/
def isPrefixL : List Char → List Char → Bool
  | [], _ => true
  | _ :: _, [] => false
  | p :: ps, c :: cs => p == c && isPrefixL ps cs

/-- Whether `pat` occurs as a contiguous substring of `l`. -/
def containsL (pat : List Char) : List Char → Bool
  | [] => pat.isEmpty
  | c :: cs => isPrefixL pat (c :: cs) || containsL pat cs

/-- Python's `pat in s` substring test. -/
def containsSub (s pat : String) : Bool :=
  containsL pat.data s.data

/-- pandas `str.contains(pat, case=False)`: case-insensitive substring test. -/
def containsCI (s pat : String) : Bool :=
  containsSub (toLowerS s) (toLowerS pat)

/-- Worker for Python `str.replace`: replace non-overlapping occurrences
left to right; `fuel` bounds the recursion (callers pass the string
length, which suffices for nonempty patterns). -/
def replaceFuel (pat rep : List Char) : Nat → List Char → List Char
  | _, [] => []
  | 0, l => l
  | fuel + 1, c :: cs =>
    if isPrefixL pat (c :: cs) then
      rep ++ replaceFuel pat rep fuel (List.drop pat.length (c :: cs))
    else
      c :: replaceFuel pat rep fuel cs

/-- Python `s.replace(pat, rep)` (every use in the source has a nonempty
`pat`; an empty pattern leaves the string unchanged here). -/
def replaceS (s pat rep : String) : String :=
  if pat.data.isEmpty then s else ⟨replaceFuel pat.data rep.data s.data.length s.data⟩

/-- Python `s.startswith(pat)`. -/
def startsWithS (s pat : String) : Bool :=
  isPrefixL pat.data s.data

/-- Python `int()` applied to a number: truncation toward zero. -/
def pyInt (q : ℚ) : ℤ :=
  Int.tdiv q.num (q.den : ℤ)

/-- One logical VM entry of the `vm_pool` (built from the "Virtual Machines"
sheet by grouping rows on VM name). -/
structure VMEntry where
  name : String
  size : String
  os : String
  osName : String
  region : String
  tags : String
deriving DecidableEq, Repr

/-- One row of the filtered "Advisor" sheet (a savings opportunity). -/
structure SavingsOpportunity where
  subscription : String
  category : String
  impact : String
  description : String
  sku : String
  savingsRegion : String
  quantity : ℚ
  annualSavings : ℚ
deriving DecidableEq, Repr

/-- One entry of the `recommendations` list (the nested single-element
`"Recommendations"` list of the Python dict is flattened into fields). -/
structure Recommendation where
  subscription : String
  vmName : String
  vmSize : String
  sku : String
  recommendation : String
  annualSavings : ℚ
  impact : String
  region : String
  os : String
  osName : String
  tags : String
deriving DecidableEq, Repr

/-- The advisor filter: `Category == "Cost" and Impact == "High" and
Description contains "reserved instance" (case-insensitive)`. -/
def eligible (adv : SavingsOpportunity) : Bool :=
  adv.category == "Cost" && adv.impact == "High" &&
    containsCI adv.description "reserved instance"

/-- Building one recommendation entry from an advisor row and a pool VM. -/
def mkRec (adv : SavingsOpportunity) (vm : VMEntry) : Recommendation :=
  { subscription := adv.subscription
    vmName := vm.name
    vmSize := vm.size
    sku := adv.sku
    recommendation := adv.description
    annualSavings := adv.annualSavings
    impact := adv.impact
    region := adv.savingsRegion
    os := vm.os
    osName := vm.osName
    tags := vm.tags }

/-- The inner `for vm in pool` loop of `generate_vm_recommendations`:
skip VMs already in `seen`, otherwise claim the VM (append a
recommendation, add the name to `seen`, increment `selected`) and stop
as soon as `selected >= quantity` — the check happens AFTER claiming.
Returns the recommendations created by this opportunity and the updated
`seen` set (modelled as a list of names). -/
def claimLoop (mk : VMEntry → Recommendation) (quantity : ℤ) :
    List VMEntry → List String → ℤ → List Recommendation × List String
  | [], seen, _ => ([], seen)
  | vm :: rest, seen, selected =>
    if vm.name ∈ seen then
      claimLoop mk quantity rest seen selected
    else
      let r := mk vm
      let seen2 := vm.name :: seen
      if selected + 1 ≥ quantity then
        ([r], seen2)
      else
        let p := claimLoop mk quantity rest seen2 (selected + 1)
        (r :: p.1, p.2)

/-- The outer loop over the filtered advisor rows, threading the global
`seen_vms` set.  `vmPool` is the lookup `vm_pool.get(key, [])`. -/
def matchLoop (vmPool : String × String → List VMEntry) :
    List SavingsOpportunity → List String → List Recommendation × List String
  | [], seen => ([], seen)
  | adv :: rest, seen =>
    let key := (trimS adv.sku, trimS (toLowerS adv.savingsRegion))
    let p := claimLoop (mkRec adv) (pyInt adv.quantity) (vmPool key) seen 0
    let q := matchLoop vmPool rest p.2
    (p.1 ++ q.1, q.2)

/-- The `recommendations` list produced by `generate_vm_recommendations`
before sorting: advisor rows filtered for eligibility, then matched
against the VM pool with global de-duplication via `seen_vms`. -/
def generateRecommendations (vmPool : String × String → List VMEntry)
    (advisors : List SavingsOpportunity) : List Recommendation :=
  (matchLoop vmPool (advisors.filter eligible) []).1

/-- `recommendations.sort(key=..., reverse=True)`: stable sort by
annual savings, descending. -/
def sortRecs (recs : List Recommendation) : List Recommendation :=
  recs.insertionSort (fun a b => a.annualSavings ≥ b.annualSavings)

/-- The high-impact selection with backfill: all recommendations with
annual savings ≥ 10; if fewer than 20, extend with recommendations with
savings > 1 not already selected, up to 20 total. -/
def selectHighImpact (recs : List Recommendation) : List Recommendation :=
  let impact := recs.filter (fun r => decide (r.annualSavings ≥ 10))
  if impact.length < 20 then
    impact ++ (recs.filter
      (fun r => decide (r.annualSavings > 1) && !(impact.contains r))).take
      (20 - impact.length)
  else
    impact

/-! ### Section 2 of the source: pricing classification (`matches_os`,
`build_azure_pricing`) -/

/-- Python `round(x, 2)`: two-decimal rounding (float ties-to-even is
modelled as rounding to the nearest rational with two decimals). -/
def round2 (q : ℚ) : ℚ :=
  (round (q * 100) : ℤ) / 100

/-- One raw item returned by the retail prices query. -/
structure PriceItem where
  type : String
  productName : String
  meterName : String
  unitPrice : ℚ
  reservationTerm : String
deriving DecidableEq, Repr

/-- `matches_os`: OS filter; excludes items whose METER text mentions
spot or low-priority pricing, then applies the windows/linux substring
rule on product and meter text. -/
def matches_os (item : PriceItem) (osFilter : String) : Bool :=
  let name := toLowerS item.productName
  let meter := toLowerS item.meterName
  if containsSub meter "spot" || containsSub meter "low priority" then
    false
  else if osFilter == "" then
    true
  else
    let f := toLowerS osFilter
    if f == "windows" then
      containsSub name "windows" || containsSub meter "windows"
    else if f == "linux" then
      !(containsSub name "windows") && !(containsSub meter "windows")
    else
      false

/-- One entry of `inputs.json` fed to `build_azure_pricing`. -/
structure InputRow where
  region : String
  sku : String
  os : String
  osName : String
  vmName : String
  tags : String
deriving DecidableEq, Repr

/-- SKU normalization on the windows branch:
`sku.replace("Standard_", "").lower().replace("_", "-")`. -/
def sanitizeSkuWindows (sku : String) : String :=
  replaceS (toLowerS (replaceS sku "Standard_" "")) "_" "-"

/-- SKU normalization on the non-windows branch:
`sku.lower().replace("_", "-")` — no prefix stripping. -/
def sanitizeSkuOther (sku : String) : String :=
  replaceS (toLowerS sku) "_" "-"

/-- The `sanitized_sku` computed per input row. -/
def sanitizedSku (os sku : String) : String :=
  if toLowerS os == "windows" then sanitizeSkuWindows sku else sanitizeSkuOther sku

/-- The cost cell of a report row: a formatted money amount, a raw
string taken from the secondary source, or a blank cell. -/
inductive Cell where
  | money (q : ℚ)
  | raw (s : String)
  | blank
deriving DecidableEq, Repr

/-- One row of the estimate table (`estimate_rows` entries, blank
separator rows, and total rows all share this shape). -/
structure Row where
  serviceCategory : String
  serviceType : String
  vmName : String
  tags : String
  region : String
  os : String
  osName : String
  sku : String
  description : String
  cost : Cell
deriving DecidableEq, Repr

/-- The PAYG selection: consumption items passing `matches_os`; for
linux only the single cheapest one (stable ascending sort, take 1). -/
def paygItems (prices : List PriceItem) (osType : String) : List PriceItem :=
  let payg := prices.filter (fun p => p.type == "Consumption" && matches_os p osType)
  if toLowerS osType == "linux" then
    (payg.insertionSort (fun a b => a.unitPrice ≤ b.unitPrice)).take 1
  else
    payg

/-- `any(term in (product+meter).lower() for term in ["ahb", "hybrid"])`. -/
def hybridText (p : PriceItem) : Bool :=
  containsSub (toLowerS (p.productName ++ p.meterName)) "ahb" ||
    containsSub (toLowerS (p.productName ++ p.meterName)) "hybrid"

/-- The `by_term` dict update: keep, per term, the item with the highest
unit price (replace only on strictly greater), preserving first-insertion
key order. -/
def byTermUpsert (term : String) (p : PriceItem) :
    List (String × PriceItem) → List (String × PriceItem)
  | [] => [(term, p)]
  | (t, q) :: rest =>
    if t == term then
      (t, if p.unitPrice > q.unitPrice then p else q) :: rest
    else
      (t, q) :: byTermUpsert term p rest

/-- The reservation selection.  Windows: all reservation items without
hybrid/AHB markers (falling back to all reservation items when none),
then per-term maximum unit price — `matches_os` is NOT applied here.
Other OS: reservation items passing `matches_os`. -/
def reservationItems (prices : List PriceItem) (osType : String) : List PriceItem :=
  if toLowerS osType == "windows" then
    let res := prices.filter (fun p => p.type == "Reservation" && !(hybridText p))
    let res2 := if res.isEmpty then prices.filter (fun p => p.type == "Reservation") else res
    (res2.foldl (fun acc p => byTermUpsert p.reservationTerm p acc) []).map Prod.snd
  else
    prices.filter (fun p => p.type == "Reservation" && matches_os p osType)

/-- An emitted PAYG estimate row: monthly cost = unit price × 730,
rounded to two decimals. -/
def paygRow (row : InputRow) (p : PriceItem) : Row :=
  { serviceCategory := "Compute"
    serviceType := "Virtual Machines"
    vmName := row.vmName
    tags := row.tags
    region := row.region
    os := row.os
    osName := row.osName
    sku := sanitizedSku row.os row.sku
    description := "1 " ++ p.meterName ++ " (" ++ row.sku ++ "), " ++ row.os ++ ", Pay-as-you-go"
    cost := Cell.money (round2 (p.unitPrice * 730)) }

/-- An emitted reservation estimate row: monthly cost = unit price
divided by 12 when the term string contains "1", else by 36, rounded to
two decimals. -/
def resRow (row : InputRow) (p : PriceItem) : Row :=
  { serviceCategory := "Compute"
    serviceType := "Virtual Machines"
    vmName := row.vmName
    tags := row.tags
    region := row.region
    os := row.os
    osName := row.osName
    sku := sanitizedSku row.os row.sku
    description := "1 " ++ p.meterName ++ " (" ++ row.sku ++ ") (" ++ p.reservationTerm ++ "), " ++ row.os ++ " Reservation"
    cost := Cell.money (round2 (p.unitPrice / (if containsSub p.reservationTerm "1" then 12 else 36))) }

/-- The rows `build_azure_pricing` emits for one input row given the
(nonempty) price list for its SKU and region. -/
def processRow (row : InputRow) (prices : List PriceItem) : List Row :=
  (paygItems prices row.os).map (paygRow row) ++
    (reservationItems prices row.os).map (resRow row)

/-- `build_azure_pricing`: iterate the inputs, look up prices (the
per-pair cache is semantically transparent since the lookup is a pure
function here), skip pairs with no pricing data, and emit the estimate
rows. -/
def buildAzurePricing (inputs : List InputRow)
    (priceFn : String → String → List PriceItem) : List Row :=
  inputs.flatMap (fun row =>
    let prices := priceFn row.sku row.region
    if prices.isEmpty then [] else processRow row prices)

/-! ### Section 2 of the source: report assembly (`build_final_dataframes`) -/

/-- `str.replace('$', '').replace(',', '')`: strip currency symbol and
thousands separators before numeric parsing. -/
def stripMoney (s : String) : String :=
  replaceS (replaceS s "$" "") "," ""

/-- Digits to a natural number. -/
def digitsVal (l : List Char) : ℕ :=
  l.foldl (fun a c => a * 10 + (c.toNat - 48)) 0

/-- Split a char list at the first '.' (the tail is `none` when there is
no dot). -/
def breakDot : List Char → List Char × Option (List Char)
  | [] => ([], none)
  | c :: cs =>
    if c == '.' then ([], some cs)
    else
      let p := breakDot cs
      (c :: p.1, p.2)

/-- Python `float(s)` on the decimal forms this program produces and
consumes: optional surrounding whitespace, optional sign, integer
digits, optional '.' and fractional digits.  `none` models a
`ValueError` being raised (as Python does on text such as "N/A"). -/
def pyFloat (s : String) : Option ℚ :=
  let t := ((s.data.dropWhile Char.isWhitespace).reverse.dropWhile Char.isWhitespace).reverse
  let signed : Bool × List Char :=
    match t with
    | '-' :: rest => (true, rest)
    | '+' :: rest => (false, rest)
    | _ => (false, t)
  let p := breakDot signed.2
  let ip := p.1
  let fp := (p.2).getD []
  if (ip ++ fp).isEmpty || !(ip.all Char.isDigit) || !(fp.all Char.isDigit) then
    none
  else
    let num : ℤ := (digitsVal ip) * 10 ^ fp.length + digitsVal fp
    some (Rat.divInt (if signed.1 then -num else num) ((10 : ℤ) ^ fp.length))

/-- The `vm_pricing` extraction (lines 462-468): parse the cost string,
`try/except` defaulting to 0 on parse failure; a formatted money cell
round-trips to its value, a blank cell fails `float` and defaults to 0. -/
def tryParseCost (c : Cell) : ℚ :=
  match c with
  | .money q => q
  | .blank => 0
  | .raw s => (pyFloat (stripMoney s)).getD 0

/-- Python dict update on an association list: overwrite the value in
place if the key exists (keeping its position), else append. -/
def upsertQ (k : String) (v : ℚ) : List (String × ℚ) → List (String × ℚ)
  | [] => [(k, v)]
  | (k2, v2) :: rest =>
    if k2 == k then (k2, v) :: rest else (k2, v2) :: upsertQ k v rest

/-- `vm_pricing`: map each VM name that has a row whose description
contains 'Pay-as-you-go' (case-sensitive) to the parsed cost of its
last such row, in first-appearance order. -/
def vmPricing (rows : List Row) : List (String × ℚ) :=
  rows.foldl (fun acc r =>
    if containsSub r.description "Pay-as-you-go" then
      upsertQ r.vmName (tryParseCost r.cost) acc
    else acc) []

/-- `sorted(vm_pricing.items(), key=..., reverse=True)`: stable sort by
cost, descending. -/
def sortedVms (rows : List Row) : List (String × ℚ) :=
  (vmPricing rows).insertionSort (fun a b => a.2 ≥ b.2)

/-- The all-blank separator row. -/
def blankRow : Row :=
  { serviceCategory := ""
    serviceType := ""
    vmName := ""
    tags := ""
    region := ""
    os := ""
    osName := ""
    sku := ""
    description := ""
    cost := Cell.blank }

/-- The sorted table body: for each VM of `sorted_vm_names` in order,
that VM's rows (original order), followed by one blank separator row. -/
def buildSortedTable (rows : List Row) : List Row :=
  (sortedVms rows).flatMap (fun p =>
    rows.filter (fun r => r.vmName == p.1) ++ [blankRow])

/-- The as-quoted `cost_numeric` column (lines 488-491): blank cells
give 0, other cells are parsed with no exception handler — a parse
failure raises. -/
def costNumeric (c : Cell) : Option ℚ :=
  match c with
  | .blank => some 0
  | .money q => some q
  | .raw s => pyFloat (stripMoney s)

/-- Sum the parsed costs over the rows selected by `sel`.  The
`cost_numeric` column is computed for every row first (so any parse
failure anywhere aborts), then summed over the selection. -/
def sumCosts (parse : Row → Option ℚ) (tbl : List Row) (sel : Row → Bool) : Option ℚ := do
  let col ← tbl.mapM (fun r => (parse r).map (fun v => (r, v)))
  return (col.filter (fun rv => sel rv.1)).foldl (fun a rv => a + rv.2) 0

/-- The three as-quoted totals (PAYG / 1 year / 3 years), selected by
case-insensitive description match. -/
def asQuotedTotals (tbl : List Row) : Option (ℚ × ℚ × ℚ) := do
  let tp ← sumCosts (fun r => costNumeric r.cost) tbl
    (fun r => containsCI r.description "Pay-as-you-go")
  let t1 ← sumCosts (fun r => costNumeric r.cost) tbl
    (fun r => containsCI r.description "1 Year")
  let t3 ← sumCosts (fun r => costNumeric r.cost) tbl
    (fun r => containsCI r.description "3 Years")
  return (tp, t1, t3)

/-- The three aggregate rows appended to the as-quoted table. -/
def totalsRows (tp t1 t3 : ℚ) : List Row :=
  [ { blankRow with
      serviceCategory := "Total"
      description := "Total Monthly Pay-as-you-go"
      cost := Cell.money tp },
    { blankRow with
      description := "Total 1 Year Reservations (Billed monthly)"
      cost := Cell.money t1 },
    { blankRow with
      description := "Total 3 Year Reservations (Billed monthly)"
      cost := Cell.money t3 } ]

/-- `df_final`: the sorted table body followed by the three totals rows
(`none` models an exception escaping the computation).  When no VM has
a Pay-as-you-go row, `sorted_rows` is empty and the rebuilt DataFrame
has no columns, so the column access
`df_sorted['Estimated monthly cost']` raises KeyError before any total
is computed — that error path is `none` here as well. -/
def buildFinalTable (rows : List Row) : Option (List Row) := do
  let tbl := buildSortedTable rows
  if tbl.isEmpty then
    none
  else do
    let t ← asQuotedTotals tbl
    return tbl ++ totalsRows t.1 t.2.1 t.2.2

/-- The labelled price strings scraped for one SKU-region pair. -/
structure SecondaryPrices where
  onDemand : Option String
  oneYear : Option String
  threeYear : Option String
deriving DecidableEq, Repr

/-- `f"${cost}" if not str(cost).startswith('$') else str(cost)`. -/
def dollarize (s : String) : String :=
  if startsWithS s "$" then s else "$" ++ s

/-- The secondary-price substitution applied to one row of the copied
table: only windows rows with nonempty SKU/region whose key is present
in the scraped data are overwritten, choosing the scraped price by
case-sensitive description match. -/
def substRow (data : String → Option SecondaryPrices) (r : Row) : Row :=
  let sku := toLowerS r.sku
  let region := toLowerS r.region
  let os := toLowerS r.os
  if sku == "" || region == "" || os == "" || os != "windows" then r
  else
    match data (sku ++ "_" ++ region) with
    | none => r
    | some info =>
      if containsSub r.description "On Demand" || containsSub r.description "Pay-as-you-go" then
        match info.onDemand with
        | some c => { r with cost := Cell.raw (dollarize c) }
        | none => r
      else if containsSub r.description "1 Year" then
        match info.oneYear with
        | some c => { r with cost := Cell.raw (dollarize c) }
        | none => r
      else if containsSub r.description "3 Years" then
        match info.threeYear with
        | some c => { r with cost := Cell.raw (dollarize c) }
        | none => r
      else r

/-- The reconciled `cost_numeric` column (lines 544-547): blank cells
and rows whose service category contains 'Total' give 0; other cells
are parsed with no exception handler — a parse failure raises. -/
def costNumericSavings (r : Row) : Option ℚ :=
  match r.cost with
  | .blank => some 0
  | .money q => if containsSub r.serviceCategory "Total" then some 0 else some q
  | .raw s => if containsSub r.serviceCategory "Total" then some 0 else pyFloat (stripMoney s)

/-- The three recomputed monthly totals of the reconciled table; the
1-year and 3-year selections exclude descriptions containing 'Total'. -/
def savingsTotals (tbl : List Row) : Option (ℚ × ℚ × ℚ) := do
  let tp ← sumCosts costNumericSavings tbl
    (fun r => containsCI r.description "Pay-as-you-go")
  let t1 ← sumCosts costNumericSavings tbl
    (fun r => containsCI r.description "1 Year" && !(containsCI r.description "Total"))
  let t3 ← sumCosts costNumericSavings tbl
    (fun r => containsCI r.description "3 Years" && !(containsCI r.description "Total"))
  return (tp, t1, t3)

/-- Overwrite the three monthly-total rows (matched by exact
description) with the recomputed totals. -/
def updateTotals (tbl : List Row) (tp t1 t3 : ℚ) : List Row :=
  tbl.map (fun r =>
    if r.description == "Total Monthly Pay-as-you-go" then
      { r with cost := Cell.money tp }
    else if r.description == "Total 1 Year Reservations (Billed monthly)" then
      { r with cost := Cell.money t1 }
    else if r.description == "Total 3 Year Reservations (Billed monthly)" then
      { r with cost := Cell.money t3 }
    else r)

/-- The nine derived rows appended to the reconciled table: annual
totals (12 × monthly), the two annual-savings rows, and the 36-month
figures, separated by blank rows. -/
def additionalRows (tp t1 t3 : ℚ) : List Row :=
  [ blankRow,
    { blankRow with
      description := "Total Yearly Pay-as-you-go"
      cost := Cell.money (tp * 12) },
    { blankRow with
      description := "Total 1 Year Reservations (Annual cost)"
      cost := Cell.money (t1 * 12) },
    { blankRow with
      description := "Annual Savings (1 Year Reservations)"
      cost := Cell.money (tp * 12 - t1 * 12) },
    blankRow,
    { blankRow with
      description := "Total 36 Months Pay-as-you-go"
      cost := Cell.money (tp * 36) },
    { blankRow with
      description := "Total 3 Year Reservations (3 Year cost)"
      cost := Cell.money (t3 * 36) },
    { blankRow with
      description := "Total 3 Year Reservations (annual cost)"
      cost := Cell.money (t3 * 12) },
    blankRow,
    { blankRow with
      description := "3 Year Reservations (Annual Savings)"
      cost := Cell.money (tp * 12 - t3 * 12) } ]

/-- `df_savings`: copy the final table, substitute secondary prices,
recompute the monthly totals over the substituted table (an exception
there aborts), overwrite the total rows and append the derived rows. -/
def buildSavings (finalTbl : List Row)
    (data : String → Option SecondaryPrices) : Option (List Row) := do
  let tbl := finalTbl.map (substRow data)
  let t ← savingsTotals tbl
  return updateTotals tbl t.1 t.2.1 t.2.2 ++ additionalRows t.1 t.2.1 t.2.2

/-- Look up the cost cell of the first row with the given description. -/
def findCost (tbl : List Row) (desc : String) : Option Cell :=
  (tbl.find? (fun r => r.description == desc)).map Row.cost

/-- Reference walk of a pool: the VMs not in `seen`, first occurrence
per name, in pool order (what "all available unclaimed VMs" means). -/
def unclaimedFirsts : List VMEntry → List String → List VMEntry
  | [], _ => []
  | vm :: rest, seen =>
    if vm.name ∈ seen then unclaimedFirsts rest seen
    else vm :: unclaimedFirsts rest (vm.name :: seen)

/-- First occurrence of each name not in `seen`, in order (the key
order of a Python dict built by repeated assignment). -/
def dedupFirsts (seen : List String) : List String → List String
  | [] => []
  | n :: rest =>
    if n ∈ seen then dedupFirsts seen rest
    else n :: dedupFirsts (n :: seen) rest

/-! ### Concrete instances used to exercise the definitions -/

/-- A running Linux VM of size Standard_D2s_v3 in eastus. -/
def vmAlpha : VMEntry :=
  ⟨"vm-alpha", "Standard_D2s_v3", "Linux", "Ubuntu", "eastus", "app"⟩

/-- A second VM with the same size and region. -/
def vmBeta : VMEntry :=
  ⟨"vm-beta", "Standard_D2s_v3", "Linux", "Ubuntu", "eastus", "app"⟩

/-- An eligible advisor opportunity whose declared quantity 0.3
truncates to 0. -/
def zeroQtyOpp : SavingsOpportunity :=
  ⟨"sub1", "Cost", "High", "Consider reserved instance purchase",
    "Standard_D2s_v3", "eastus", Rat.divInt 3 10, 50⟩

/-- A pool lookup with a single matching VM. -/
def singleVMPool : String × String → List VMEntry := fun k =>
  if k = ("Standard_D2s_v3", "eastus") then [vmAlpha] else []

/-- A reservation price item whose meter text mentions Spot. -/
def spotReservationItem : PriceItem :=
  ⟨"Reservation", "Dv3 Series", "D2 v3 Spot", 876, "1 Year"⟩

/-- A Windows input row. -/
def windowsInputRow : InputRow :=
  ⟨"eastus", "Standard_D2s_v3", "Windows", "WinServer", "VMW", "t"⟩

/-- A Linux consumption price item. -/
def linuxConsumptionItem : PriceItem :=
  ⟨"Consumption", "Dv3 Series", "D2 v3", 1, ""⟩

/-- A Linux input row with an environment-family-prefixed SKU. -/
def linuxInputRow : InputRow :=
  ⟨"eastus", "Standard_D2s_v3", "Linux", "Ubuntu", "VML", "t"⟩

/-- An estimate row for VM "A" that has a reservation price but no
pay-as-you-go price. -/
def reservationOnlyRow : Row := { blankRow with
  serviceCategory := "Compute"
  vmName := "A"
  description := "1 D2 v3 (Standard_D2s_v3) (1 Year), Linux Reservation"
  cost := Cell.money 10 }

/-- A windows pay-as-you-go row of a final table, keyed d2s-v3/eastus. -/
def windowsPaygTableRow : Row := { blankRow with
  serviceCategory := "Compute"
  vmName := "W"
  region := "eastus"
  os := "Windows"
  sku := "d2s-v3"
  description := "1 D2 v3 (Standard_D2s_v3), Windows, Pay-as-you-go"
  cost := Cell.money 100 }

/-- Scraped secondary data whose on-demand price string is the
non-numeric text "N/A". -/
def secondaryNAData : String → Option SecondaryPrices := fun k =>
  if k = "d2s-v3_eastus" then some ⟨some "N/A", none, none⟩ else none

/-! ## Matcher invariants -/

/-- The inner claim loop only creates recommendations for VM names that
were not yet seen, creates each name at most once, and returns a seen
set that is exactly the old one extended by the claimed names. -/
theorem claimLoop_spec (mk : VMEntry → Recommendation)
    (hmk : ∀ vm, (mk vm).vmName = vm.name) (quantity : ℤ) :
    ∀ (pool : List VMEntry) (seen : List String) (selected : ℤ),
      ((claimLoop mk quantity pool seen selected).1.map Recommendation.vmName).Nodup ∧
      (∀ n ∈ (claimLoop mk quantity pool seen selected).1.map Recommendation.vmName, n ∉ seen) ∧
      (∀ n, n ∈ (claimLoop mk quantity pool seen selected).2 ↔
        n ∈ seen ∨ n ∈ (claimLoop mk quantity pool seen selected).1.map Recommendation.vmName) := by
  intro pool
  induction pool with
  | nil => intro seen selected; simp [claimLoop]
  | cons vm rest ih =>
    intro seen selected
    by_cases hs : vm.name ∈ seen
    · simpa only [claimLoop, if_pos hs] using ih seen selected
    · by_cases hq : selected + 1 ≥ quantity
      · simp only [claimLoop, if_neg hs, if_pos hq]
        refine ⟨by simp, ?_, ?_⟩
        · intro n hn
          simp only [List.map_cons, List.map_nil, List.mem_singleton, hmk] at hn
          exact hn ▸ hs
        · intro n
          simp [hmk, List.mem_cons, or_comm]
      · simp only [claimLoop, if_neg hs, if_neg hq]
        obtain ⟨ih1, ih2, ih3⟩ := ih (vm.name :: seen) (selected + 1)
        refine ⟨?_, ?_, ?_⟩
        · simp only [List.map_cons, List.nodup_cons, hmk]
          refine ⟨fun hmem => ?_, ih1⟩
          exact (ih2 _ hmem) (List.mem_cons_self _ _)
        · intro n hn
          simp only [List.map_cons, List.mem_cons, hmk] at hn
          rcases hn with rfl | hn
          · exact hs
          · exact fun hseen => (ih2 n hn) (List.mem_cons_of_mem _ hseen)
        · intro n
          rw [ih3 n]
          simp only [List.map_cons, List.mem_cons, hmk]
          tauto

/-- The outer matching loop creates globally distinct VM names, never a
name already in `seen`, and extends `seen` by exactly the claimed
names. -/
theorem matchLoop_spec (vmPool : String × String → List VMEntry) :
    ∀ (advs : List SavingsOpportunity) (seen : List String),
      ((matchLoop vmPool advs seen).1.map Recommendation.vmName).Nodup ∧
      (∀ n ∈ (matchLoop vmPool advs seen).1.map Recommendation.vmName, n ∉ seen) ∧
      (∀ n, n ∈ (matchLoop vmPool advs seen).2 ↔
        n ∈ seen ∨ n ∈ (matchLoop vmPool advs seen).1.map Recommendation.vmName) := by
  intro advs
  induction advs with
  | nil => intro seen; simp [matchLoop]
  | cons adv rest ih =>
    intro seen
    simp only [matchLoop]
    obtain ⟨c1, c2, c3⟩ :=
      claimLoop_spec (mkRec adv) (fun vm => rfl) (pyInt adv.quantity)
        (vmPool (trimS adv.sku, trimS (toLowerS adv.savingsRegion))) seen 0
    obtain ⟨m1, m2, m3⟩ := ih
      (claimLoop (mkRec adv) (pyInt adv.quantity)
        (vmPool (trimS adv.sku, trimS (toLowerS adv.savingsRegion))) seen 0).2
    refine ⟨?_, ?_, ?_⟩
    · rw [List.map_append, List.nodup_append]
      refine ⟨c1, m1, ?_⟩
      intro n hn hn2
      exact (m2 n hn2) ((c3 n).2 (Or.inr hn))
    · intro n hn
      rw [List.map_append, List.mem_append] at hn
      rcases hn with hn | hn
      · exact c2 n hn
      · exact fun hseen => (m2 n hn) ((c3 n).2 (Or.inl hseen))
    · intro n
      rw [m3 n, c3 n, List.map_append, List.mem_append]
      tauto

/-- C1: no VM name appears in more than one entry of the
recommendation list produced by the matcher: the claimed VM names of
the produced recommendations are pairwise distinct, for every VM pool
and every advisor list — in particular also when several opportunities
target the same (SKU, region) key. -/
theorem C1_no_vm_claimed_twice (vmPool : String × String → List VMEntry)
    (advisors : List SavingsOpportunity) :
    ((generateRecommendations vmPool advisors).map Recommendation.vmName).Nodup :=
  (matchLoop_spec vmPool (advisors.filter eligible) []).1

/-! ## Quantity handling of the claim loop -/

/-- With quantity 0 the claim loop still claims one VM when an
unclaimed one is available, because `selected >= quantity` is only
checked after a VM has been claimed. -/
theorem claimLoop_zero (mk : VMEntry → Recommendation) :
    ∀ (pool : List VMEntry) (seen : List String),
      (claimLoop mk 0 pool seen 0).1.length =
        if pool.any (fun vm => !(seen.contains vm.name)) then 1 else 0 := by
  intro pool
  induction pool with
  | nil => intro seen; simp [claimLoop]
  | cons vm rest ih =>
    intro seen
    by_cases hs : vm.name ∈ seen
    · have hc : seen.contains vm.name = true := List.elem_iff.2 hs
      have : (rest.any (fun v => !(seen.contains v.name))) =
        ((vm :: rest).any (fun v => !(seen.contains v.name))) := by
        simp only [List.any_cons, hc, Bool.not_true, Bool.false_or]
      rw [claimLoop, if_pos hs, ih seen, this]
    · have hc : seen.contains vm.name = false := by
        simpa using fun h => hs (List.elem_iff.1 h)
      have h1 : (0 : ℤ) + 1 ≥ 0 := by omega
      rw [claimLoop, if_neg hs, if_pos h1]
      have : ((vm :: rest).any (fun v => !(seen.contains v.name))) = true := by
        simp only [List.any_cons, hc, Bool.not_false, Bool.true_or]
      rw [this]
      simp

/-- When the quantity is at least `selected` plus the number of
unclaimed VMs in the pool, the break is never reached before the last
unclaimed VM and the loop claims exactly the unclaimed VMs, in pool
order. -/
theorem claimLoop_unclaimed (mk : VMEntry → Recommendation) (q : ℤ) :
    ∀ (pool : List VMEntry) (seen : List String) (selected : ℤ),
      q ≥ selected + (unclaimedFirsts pool seen).length →
      (claimLoop mk q pool seen selected).1 = (unclaimedFirsts pool seen).map mk := by
  intro pool
  induction pool with
  | nil => intro seen selected _; simp [claimLoop, unclaimedFirsts]
  | cons vm rest ih =>
    intro seen selected hq
    by_cases hs : vm.name ∈ seen
    · rw [unclaimedFirsts, if_pos hs] at hq ⊢
      rw [claimLoop, if_pos hs]
      exact ih seen selected hq
    · rw [unclaimedFirsts, if_neg hs] at hq ⊢
      rw [claimLoop, if_neg hs]
      simp only [List.length_cons] at hq
      by_cases hb : selected + 1 ≥ q
      · have hrest : (unclaimedFirsts rest (vm.name :: seen)).length = 0 := by
          push_cast at hq; omega
        rw [List.length_eq_zero] at hrest
        rw [if_pos hb, hrest]
        simp
      · rw [if_neg hb]
        simp only [List.map_cons, List.cons.injEq, true_and]
        exact ih (vm.name :: seen) (selected + 1) (by push_cast at hq ⊢; omega)

/-- C2 counterexample: an eligible opportunity whose declared quantity
0.3 truncates to 0 nevertheless produces one recommendation, because
the loop checks `selected >= quantity` only after claiming a VM — the
claim's "zero Recommendations" is false. -/
theorem C2_counterexample :
    pyInt zeroQtyOpp.quantity = 0 ∧ eligible zeroQtyOpp = true ∧
      (generateRecommendations singleVMPool [zeroQtyOpp]).length = 1 := by
  decide

/-- C2 amended: an eligible opportunity whose declared quantity
truncates to 0 produces exactly one recommendation when its pool still
holds an unclaimed VM (zero only when it does not); and an opportunity
requesting at least (in particular, more than) the available unclaimed
VMs is satisfied partially with no error, claiming exactly the
available unclaimed VMs in pool order. -/
theorem C2_amended_quantity (mk : VMEntry → Recommendation)
    (pool : List VMEntry) (seen : List String) (qdecl : ℚ) (q : ℤ) :
    (pyInt qdecl = 0 →
      (claimLoop mk (pyInt qdecl) pool seen 0).1.length =
        if pool.any (fun vm => !(seen.contains vm.name)) then 1 else 0) ∧
    (q ≥ (unclaimedFirsts pool seen).length →
      (claimLoop mk q pool seen 0).1 = (unclaimedFirsts pool seen).map mk) := by
  constructor
  · intro hq
    rw [hq]
    exact claimLoop_zero mk pool seen
  · intro hq
    exact claimLoop_unclaimed mk q pool seen 0 (by omega)

/-- Witness for the amended C2 theorem at concrete inputs: quantity 0.3
on a one-VM pool claims that VM; and the spec's partial-fulfilment
scenario — a pool whose first VM is already claimed, one VM unclaimed,
requesting 2 — claims exactly the one unclaimed VM. -/
theorem C2_amended_quantity_witness :
    ((claimLoop (mkRec zeroQtyOpp) (pyInt zeroQtyOpp.quantity) [vmAlpha] [] 0).1.length = 1) ∧
    ((claimLoop (mkRec zeroQtyOpp) 2 [vmAlpha, vmBeta] ["vm-alpha"] 0).1 =
      (unclaimedFirsts [vmAlpha, vmBeta] ["vm-alpha"]).map (mkRec zeroQtyOpp)) := by
  constructor
  · exact ((C2_amended_quantity (mkRec zeroQtyOpp) [vmAlpha] [] zeroQtyOpp.quantity 2).1
      (by decide)).trans (by decide)
  · exact (C2_amended_quantity (mkRec zeroQtyOpp) [vmAlpha, vmBeta] ["vm-alpha"]
      zeroQtyOpp.quantity 2).2 (by decide)

/-! ## High-impact selection -/

/-- Splitting the savings > 1 count at the threshold 10. -/
theorem filter_gt_one_split (recs : List Recommendation) :
    (recs.filter (fun r => decide (r.annualSavings > 1))).length =
      (recs.filter (fun r => decide (r.annualSavings ≥ 10))).length +
      (recs.filter (fun r => decide (r.annualSavings > 1) &&
        decide (r.annualSavings < 10))).length := by
  induction recs with
  | nil => simp
  | cons r t ih =>
    by_cases h10 : r.annualSavings ≥ 10
    · have h1 : r.annualSavings > 1 :=
        lt_of_lt_of_le (by norm_num) h10
      have hn : ¬(r.annualSavings < 10) := not_lt.2 h10
      simp [List.filter_cons, h10, h1, hn, ih]
      omega
    · by_cases h1 : r.annualSavings > 1
      · have hlt : r.annualSavings < 10 := lt_of_not_ge h10
        simp [List.filter_cons, h10, h1, hlt, ih]
        omega
      · simp [List.filter_cons, h10, h1, ih]

/-- For elements of the list, not being contained in the threshold
subset is the same as having savings below 10. -/
theorem backfill_filter_eq (recs : List Recommendation) :
    recs.filter (fun r => decide (r.annualSavings > 1) &&
      !((recs.filter (fun r => decide (r.annualSavings ≥ 10))).contains r)) =
    recs.filter (fun r => decide (r.annualSavings > 1) &&
      decide (r.annualSavings < 10)) := by
  apply List.filter_congr
  intro r hr
  by_cases h1 : r.annualSavings > 1
  · by_cases h10 : r.annualSavings ≥ 10
    · have hmem : r ∈ recs.filter (fun x => decide (x.annualSavings ≥ 10)) :=
        List.mem_filter.2 ⟨hr, by simpa⟩
      have hc : (recs.filter (fun x => decide (x.annualSavings ≥ 10))).contains r = true :=
        List.elem_iff.2 hmem
      simp [hc, not_lt.2 h10, h1, hr, h10]
    · have hnot : r ∉ recs.filter (fun x => decide (x.annualSavings ≥ 10)) := by
        intro hmem
        exact h10 (by simpa using (List.mem_filter.1 hmem).2)
      have hc : (recs.filter (fun x => decide (x.annualSavings ≥ 10))).contains r = false := by
        simpa using fun h => hnot (List.elem_iff.1 h)
      simp [hc, lt_of_not_ge h10, h1]
  · simp [h1]

/-- The count of the high-impact selection on an arbitrary
recommendation list: threshold subset plus backfill gives
max(count of savings ≥ 10, min(20, count of savings > 1)). -/
theorem selectHighImpact_length (recs : List Recommendation) :
    (selectHighImpact recs).length =
      max ((recs.filter (fun r => decide (r.annualSavings ≥ 10))).length)
        (min 20 ((recs.filter (fun r => decide (r.annualSavings > 1))).length)) := by
  have hsplit := filter_gt_one_split recs
  simp only [selectHighImpact]
  by_cases hlt : (recs.filter (fun r => decide (r.annualSavings ≥ 10))).length < 20
  · rw [if_pos hlt, List.length_append, backfill_filter_eq, List.length_take]
    omega
  · rw [if_neg hlt]
    omega

/-- C3: for the full recommendation list of any run — matched against
the VM pool, then sorted by annual savings descending — the number of
high-impact recommendations selected for output (threshold subset plus
backfill) equals max(count of recommendations with annual savings ≥
10, min(20, count of recommendations with annual savings > 1)). -/
theorem C3_selected_count (vmPool : String × String → List VMEntry)
    (advisors : List SavingsOpportunity) :
    (selectHighImpact (sortRecs (generateRecommendations vmPool advisors))).length =
      max (((sortRecs (generateRecommendations vmPool advisors)).filter
          (fun r => decide (r.annualSavings ≥ 10))).length)
        (min 20 (((sortRecs (generateRecommendations vmPool advisors)).filter
          (fun r => decide (r.annualSavings > 1))).length)) :=
  selectHighImpact_length _

/-- C10: after sorting by annual savings descending, the selected
high-impact list (threshold subset plus backfill) is monotonically
non-increasing in annual savings, and every backfilled entry has
annual savings strictly below 10. -/
theorem C10_selected_sorted (recs : List Recommendation) :
    (((selectHighImpact (sortRecs recs)).map Recommendation.annualSavings).Pairwise (· ≥ ·)) ∧
    (∀ r ∈ (selectHighImpact (sortRecs recs)).drop
        (((sortRecs recs).filter (fun r => decide (r.annualSavings ≥ 10))).length),
      r.annualSavings < 10) := by
  have hs : (sortRecs recs).Pairwise
      (fun a b : Recommendation => a.annualSavings ≥ b.annualSavings) := by
    haveI : IsTotal Recommendation (fun a b => a.annualSavings ≥ b.annualSavings) :=
      ⟨fun a b => le_total b.annualSavings a.annualSavings⟩
    haveI : IsTrans Recommendation (fun a b => a.annualSavings ≥ b.annualSavings) :=
      ⟨fun a b c hab hbc => le_trans hbc hab⟩
    exact List.sorted_insertionSort _ recs
  have hlow : ∀ r ∈ (sortRecs recs).filter
      (fun r => decide (r.annualSavings > 1) &&
        !(((sortRecs recs).filter (fun x => decide (x.annualSavings ≥ 10))).contains r)),
      r.annualSavings < 10 := by
    intro r hmem
    obtain ⟨hin, hq⟩ := List.mem_filter.1 hmem
    simp only [Bool.and_eq_true, Bool.not_eq_true'] at hq
    by_contra hge
    have hmem10 : r ∈ (sortRecs recs).filter (fun x => decide (x.annualSavings ≥ 10)) :=
      List.mem_filter.2 ⟨hin, by simpa using not_lt.1 hge⟩
    have helem : ((sortRecs recs).filter
        (fun x => decide (x.annualSavings ≥ 10))).contains r = true :=
      List.elem_iff.2 hmem10
    rw [hq.2] at helem
    cases helem
  simp only [selectHighImpact]
  by_cases hlt : ((sortRecs recs).filter (fun r => decide (r.annualSavings ≥ 10))).length < 20
  · rw [if_pos hlt]
    constructor
    · rw [List.map_append, List.pairwise_append]
      refine ⟨?_, ?_, ?_⟩
      · rw [List.pairwise_map]
        exact hs.sublist (List.filter_sublist _)
      · rw [List.pairwise_map]
        exact hs.sublist ((List.take_sublist _ _).trans (List.filter_sublist _))
      · intro x hx y hy
        obtain ⟨a, ha, rfl⟩ := List.mem_map.1 hx
        obtain ⟨b, hb, rfl⟩ := List.mem_map.1 hy
        have ha10 : a.annualSavings ≥ 10 := by
          simpa using (List.mem_filter.1 ha).2
        have hb10 : b.annualSavings < 10 :=
          hlow b (List.take_subset _ _ hb)
        exact le_of_lt (lt_of_lt_of_le hb10 ha10)
    · intro r hr
      rw [List.drop_left] at hr
      exact hlow r (List.take_subset _ _ hr)
  · rw [if_neg hlt]
    constructor
    · rw [List.pairwise_map]
      exact hs.sublist (List.filter_sublist _)
    · intro r hr
      rw [List.drop_length] at hr
      cases hr

/-! ## Pricing classification -/

/-- C4 counterexample: a reservation item whose meter text mentions
Spot is emitted by the Windows reservation-selection path (which never
applies `matches_os`), so spot items are not excluded unconditionally
for both OS families. -/
theorem C4_counterexample :
    containsSub (toLowerS spotReservationItem.meterName) "spot" = true ∧
      (buildAzurePricing [windowsInputRow] (fun _ _ => [spotReservationItem])).map
          Row.description =
        ["1 D2 v3 Spot (Standard_D2s_v3) (1 Year), Windows Reservation"] := by
  decide

/-- C4 amended: `matches_os` rejects any item whose METER text mentions
spot or low-priority pricing, unconditionally for every OS filter; the
product text is not consulted for this rule, and the Windows
reservation-selection path bypasses `matches_os` entirely. -/
theorem C4_matches_os_excludes_spot (item : PriceItem) (osFilter : String)
    (h : containsSub (toLowerS item.meterName) "spot" = true ∨
      containsSub (toLowerS item.meterName) "low priority" = true) :
    matches_os item osFilter = false := by
  unfold matches_os
  rcases h with h | h <;> simp [h]

/-- Witness: the spot reservation item is rejected by `matches_os` for
the windows filter (though the windows reservation path never asks). -/
theorem C4_matches_os_excludes_spot_witness :
    matches_os spotReservationItem "Windows" = false :=
  C4_matches_os_excludes_spot spotReservationItem "Windows" (Or.inl (by decide))

/-- C5 counterexample: for a Linux input row the normalized SKU written
into the report rows keeps the environment-family prefix —
"Standard_D2s_v3" becomes "standard-d2s-v3". -/
theorem C5_counterexample :
    (buildAzurePricing [linuxInputRow] (fun _ _ => [linuxConsumptionItem])).map Row.sku =
      ["standard-d2s-v3"] ∧
    startsWithS "standard-d2s-v3" "standard" = true := by
  decide

/-- C5 amended: the SKU normalization splits on OS family — windows
rows strip the "Standard_" prefix, lowercase and hyphenate; rows of any
other OS family only lowercase and hyphenate, keeping the prefix.
Every emitted report row carries the sanitized SKU of its OS branch. -/
theorem C5_sku_normalization (row : InputRow) (prices : List PriceItem) (r : Row)
    (h : r ∈ processRow row prices) :
    r.sku = (if toLowerS row.os == "windows" then sanitizeSkuWindows row.sku
      else sanitizeSkuOther row.sku) := by
  rcases List.mem_append.1 h with h | h <;>
    obtain ⟨p, _, rfl⟩ := List.mem_map.1 h <;> rfl

/-- Witness: the single PAYG row emitted for the Linux input carries
the non-stripped normalization. -/
theorem C5_sku_normalization_witness :
    (paygRow linuxInputRow linuxConsumptionItem).sku =
      (if toLowerS linuxInputRow.os == "windows" then sanitizeSkuWindows linuxInputRow.sku
        else sanitizeSkuOther linuxInputRow.sku) :=
  C5_sku_normalization linuxInputRow [linuxConsumptionItem] _
    (List.mem_append_left _
      (List.mem_map_of_mem _ (List.mem_singleton_self _)))

/-- C7: every row emitted for one input is either a PAYG row whose
monthly cost is the unit price × 730 rounded to two decimals, or a
reservation row whose monthly cost is the quoted price divided by 12
when the term string contains "1" and by 36 otherwise, rounded to two
decimals. -/
theorem C7_monthly_costs (row : InputRow) (prices : List PriceItem) (r : Row)
    (h : r ∈ processRow row prices) :
    (∃ p ∈ paygItems prices row.os, r = paygRow row p ∧
      r.cost = Cell.money (round2 (p.unitPrice * 730))) ∨
    (∃ p ∈ reservationItems prices row.os, r = resRow row p ∧
      r.cost = Cell.money (round2 (p.unitPrice /
        (if containsSub p.reservationTerm "1" then 12 else 36)))) := by
  rcases List.mem_append.1 h with h | h
  · obtain ⟨p, hp, rfl⟩ := List.mem_map.1 h
    exact Or.inl ⟨p, hp, rfl, rfl⟩
  · obtain ⟨p, hp, rfl⟩ := List.mem_map.1 h
    exact Or.inr ⟨p, hp, rfl, rfl⟩

/-- Witness: the PAYG row emitted for the Linux input has monthly cost
equal to its unit price × 730, rounded to two decimals. -/
theorem C7_monthly_costs_witness :
    (∃ p ∈ paygItems [linuxConsumptionItem] linuxInputRow.os,
      paygRow linuxInputRow linuxConsumptionItem = paygRow linuxInputRow p ∧
      (paygRow linuxInputRow linuxConsumptionItem).cost =
        Cell.money (round2 (p.unitPrice * 730))) ∨
    (∃ p ∈ reservationItems [linuxConsumptionItem] linuxInputRow.os,
      paygRow linuxInputRow linuxConsumptionItem = resRow linuxInputRow p ∧
      (paygRow linuxInputRow linuxConsumptionItem).cost =
        Cell.money (round2 (p.unitPrice /
          (if containsSub p.reservationTerm "1" then 12 else 36)))) :=
  C7_monthly_costs linuxInputRow [linuxConsumptionItem] _
    (List.mem_append_left _
      (List.mem_map_of_mem _ (List.mem_singleton_self _)))

/-! ## Report assembly -/

/-- C6: the cost parsing of the reconciled table tolerates the currency
symbol and thousands separators, but it has no exception handler — a
substituted secondary price string that is not numeric (scraped value
"N/A") makes the recomputed-totals parsing raise instead of defaulting
to zero, so the totals computation aborts (modelled as `none`). -/
theorem C6_parse_failure_raises :
    pyFloat (stripMoney "$1,234.56") = some (Rat.divInt 123456 100) ∧
    (substRow secondaryNAData windowsPaygTableRow).cost = Cell.raw "$N/A" ∧
    pyFloat (stripMoney "$N/A") = none ∧
    buildSavings [windowsPaygTableRow] secondaryNAData = none := by
  decide

/-- C8: whenever the reconciled table is built successfully, it ends in
the nine derived rows, in which the Annual Savings (1 Year
Reservations) row equals the Total Yearly Pay-as-you-go value minus the
Total 1 Year Reservations annual value, the 3 Year Reservations (Annual
Savings) row equals the annual PAYG total minus the annual 3-year
total, and each annual total is 12 times the corresponding recomputed
monthly total. -/
theorem C8_annual_savings_rows (finalTbl : List Row)
    (data : String → Option SecondaryPrices) (out : List Row) (tp t1 t3 : ℚ)
    (hout : buildSavings finalTbl data = some out)
    (htot : savingsTotals (finalTbl.map (substRow data)) = some (tp, t1, t3)) :
    out = updateTotals (finalTbl.map (substRow data)) tp t1 t3 ++
      additionalRows tp t1 t3 ∧
    findCost (additionalRows tp t1 t3) "Total Yearly Pay-as-you-go" =
      some (Cell.money (tp * 12)) ∧
    findCost (additionalRows tp t1 t3) "Total 1 Year Reservations (Annual cost)" =
      some (Cell.money (t1 * 12)) ∧
    findCost (additionalRows tp t1 t3) "Total 3 Year Reservations (annual cost)" =
      some (Cell.money (t3 * 12)) ∧
    findCost (additionalRows tp t1 t3) "Annual Savings (1 Year Reservations)" =
      some (Cell.money (tp * 12 - t1 * 12)) ∧
    findCost (additionalRows tp t1 t3) "3 Year Reservations (Annual Savings)" =
      some (Cell.money (tp * 12 - t3 * 12)) := by
  refine ⟨?_, rfl, rfl, rfl, rfl, rfl⟩
  simp only [buildSavings] at hout
  rw [htot] at hout
  simpa using hout.symm

/-- Witness for the C8 theorem on the empty table with no secondary
data: the totals are zero and the output is exactly the derived rows. -/
theorem C8_annual_savings_rows_witness :
    (additionalRows 0 0 0 =
      updateTotals (([] : List Row).map (substRow (fun _ => none))) 0 0 0 ++
        additionalRows 0 0 0) ∧
    findCost (additionalRows (0 : ℚ) 0 0) "Total Yearly Pay-as-you-go" =
      some (Cell.money ((0 : ℚ) * 12)) ∧
    findCost (additionalRows (0 : ℚ) 0 0) "Total 1 Year Reservations (Annual cost)" =
      some (Cell.money ((0 : ℚ) * 12)) ∧
    findCost (additionalRows (0 : ℚ) 0 0) "Total 3 Year Reservations (annual cost)" =
      some (Cell.money ((0 : ℚ) * 12)) ∧
    findCost (additionalRows (0 : ℚ) 0 0) "Annual Savings (1 Year Reservations)" =
      some (Cell.money ((0 : ℚ) * 12 - 0 * 12)) ∧
    findCost (additionalRows (0 : ℚ) 0 0) "3 Year Reservations (Annual Savings)" =
      some (Cell.money ((0 : ℚ) * 12 - 0 * 12)) :=
  C8_annual_savings_rows [] (fun _ => none) (additionalRows 0 0 0) 0 0 0 rfl rfl

/-! ## As-quoted table structure -/

/-- Keys of the association list after a dict-style upsert: unchanged
when the key is present, appended otherwise. -/
theorem upsertQ_keys (k : String) (v : ℚ) (l : List (String × ℚ)) :
    (upsertQ k v l).map Prod.fst =
      if k ∈ l.map Prod.fst then l.map Prod.fst else l.map Prod.fst ++ [k] := by
  induction l with
  | nil => simp [upsertQ]
  | cons p rest ih =>
    obtain ⟨k2, v2⟩ := p
    by_cases hk : k2 = k
    · subst hk
      simp [upsertQ]
    · have hbeq : (k2 == k) = false := by simpa using hk
      by_cases hm : k ∈ rest.map Prod.fst <;>
        simp [upsertQ, hbeq, ih, hm, List.mem_cons, Ne.symm hk, hk]

/-- `dedupFirsts` only depends on the membership of `seen`. -/
theorem dedupFirsts_congr : ∀ (l : List String) (s1 s2 : List String),
    (∀ x, x ∈ s1 ↔ x ∈ s2) → dedupFirsts s1 l = dedupFirsts s2 l
  | [], _, _, _ => rfl
  | n :: rest, s1, s2, h => by
    by_cases hn : n ∈ s1
    · rw [dedupFirsts, dedupFirsts, if_pos hn, if_pos ((h n).1 hn)]
      exact dedupFirsts_congr rest s1 s2 h
    · rw [dedupFirsts, dedupFirsts, if_neg hn, if_neg (fun hh => hn ((h n).2 hh))]
      rw [dedupFirsts_congr rest (n :: s1) (n :: s2) (by intro x; simp [h x])]

/-- `dedupFirsts` yields distinct names, none of them already seen. -/
theorem dedupFirsts_nodup : ∀ (l : List String) (seen : List String),
    (dedupFirsts seen l).Nodup ∧ ∀ x ∈ dedupFirsts seen l, x ∉ seen
  | [], seen => by simp [dedupFirsts]
  | n :: rest, seen => by
    by_cases hn : n ∈ seen
    · rw [dedupFirsts, if_pos hn]
      exact dedupFirsts_nodup rest seen
    · rw [dedupFirsts, if_neg hn]
      obtain ⟨h1, h2⟩ := dedupFirsts_nodup rest (n :: seen)
      refine ⟨List.nodup_cons.2 ⟨fun hmem => (h2 n hmem) (List.mem_cons_self _ _), h1⟩, ?_⟩
      intro x hx
      rcases List.mem_cons.1 hx with rfl | hx
      · exact hn
      · exact fun hs => (h2 x hx) (List.mem_cons_of_mem _ hs)

/-- The keys accumulated by the `vm_pricing` fold: the keys of the
accumulator followed by the first occurrences of the names of the
Pay-as-you-go rows that are not keys yet. -/
theorem vmPricing_keys_aux : ∀ (rows : List Row) (acc : List (String × ℚ)),
    ((rows.foldl (fun acc r =>
        if containsSub r.description "Pay-as-you-go" then
          upsertQ r.vmName (tryParseCost r.cost) acc
        else acc) acc).map Prod.fst) =
      acc.map Prod.fst ++
        dedupFirsts (acc.map Prod.fst)
          ((rows.filter (fun r => containsSub r.description "Pay-as-you-go")).map Row.vmName)
  | [], acc => by simp [dedupFirsts]
  | r :: rows, acc => by
    simp only [List.foldl_cons, List.filter_cons]
    by_cases hp : containsSub r.description "Pay-as-you-go" = true
    · rw [if_pos hp, if_pos hp]
      rw [vmPricing_keys_aux rows (upsertQ r.vmName (tryParseCost r.cost) acc)]
      rw [upsertQ_keys]
      by_cases hm : r.vmName ∈ acc.map Prod.fst
      · rw [if_pos hm]
        simp only [List.map_cons]
        rw [dedupFirsts, if_pos hm]
      · rw [if_neg hm]
        simp only [List.map_cons]
        rw [dedupFirsts, if_neg hm]
        rw [dedupFirsts_congr _ (acc.map Prod.fst ++ [r.vmName]) (r.vmName :: acc.map Prod.fst)
          (by intro x; simp [List.mem_append, List.mem_cons, or_comm])]
        simp
    · rw [if_neg hp, if_neg hp]
      exact vmPricing_keys_aux rows acc

/-- The keys of `vm_pricing` are exactly the VM names of the rows whose
description mentions Pay-as-you-go, first occurrence each, in order. -/
theorem vmPricing_keys (rows : List Row) :
    (vmPricing rows).map Prod.fst =
      dedupFirsts []
        ((rows.filter (fun r => containsSub r.description "Pay-as-you-go")).map Row.vmName) := by
  simpa using vmPricing_keys_aux rows []

/-- C9 counterexample: VM "A" contributed a reservation pricing row
but no Pay-as-you-go row; the table (which does build, since VM "W"
has a Pay-as-you-go row) drops VM "A" entirely — it is not "still
present, sorting last with ordering key zero". -/
theorem C9_counterexample :
    reservationOnlyRow.vmName = "A" ∧
    (buildFinalTable [windowsPaygTableRow, reservationOnlyRow]).isSome = true ∧
    ((buildFinalTable [windowsPaygTableRow, reservationOnlyRow]).getD []).all
      (fun r => r.vmName != "A") = true := by
  decide

/-- C9 amended: in the as-quoted table, every VM with at least one
Pay-as-you-go pricing row appears as one contiguous group (its rows in
original order followed by a blank separator row), the groups ordered
by non-increasing pay-as-you-go monthly cost with one group per VM
name, before the three aggregate total rows; a VM whose rows have no
Pay-as-you-go row is omitted from the table: the group keys are a
permutation of exactly the first occurrences of the Pay-as-you-go row
names.  (When no VM at all has a Pay-as-you-go row the build raises —
the hypothesis `h` excludes that error path.) -/
theorem C9_table_structure (rows out : List Row) (tp t1 t3 : ℚ)
    (h : buildFinalTable rows = some out)
    (htot : asQuotedTotals (buildSortedTable rows) = some (tp, t1, t3)) :
    out = (sortedVms rows).flatMap
        (fun p => rows.filter (fun r => r.vmName == p.1) ++ [blankRow]) ++
      totalsRows tp t1 t3 ∧
    ((sortedVms rows).map Prod.snd).Pairwise (· ≥ ·) ∧
    ((sortedVms rows).map Prod.fst).Nodup ∧
    ((sortedVms rows).map Prod.fst).Perm
      (dedupFirsts []
        ((rows.filter (fun r => containsSub r.description "Pay-as-you-go")).map
          Row.vmName)) := by
  have hperm : List.Perm (sortedVms rows) (vmPricing rows) := List.perm_insertionSort _ _
  have hkeysperm : List.Perm ((sortedVms rows).map Prod.fst)
      (dedupFirsts [] ((rows.filter
        (fun r => containsSub r.description "Pay-as-you-go")).map Row.vmName)) :=
    (vmPricing_keys rows) ▸ (hperm.map Prod.fst)
  refine ⟨?_, ?_, ?_, hkeysperm⟩
  · simp only [buildFinalTable] at h
    split at h
    · simp at h
    · rw [htot] at h
      simpa [buildSortedTable] using h.symm
  · haveI : IsTotal (String × ℚ) (fun a b => a.2 ≥ b.2) :=
      ⟨fun a b => le_total b.2 a.2⟩
    haveI : IsTrans (String × ℚ) (fun a b => a.2 ≥ b.2) :=
      ⟨fun a b c hab hbc => le_trans hbc hab⟩
    rw [List.pairwise_map]
    exact List.sorted_insertionSort (fun a b : String × ℚ => a.2 ≥ b.2) (vmPricing rows)
  · exact hkeysperm.nodup_iff.2 (dedupFirsts_nodup _ []).1

/-- Witness for the C9 theorem on a one-row table with a single
Pay-as-you-go row. -/
theorem C9_table_structure_witness :
    ((sortedVms [windowsPaygTableRow]).flatMap
        (fun p => [windowsPaygTableRow].filter (fun r => r.vmName == p.1) ++ [blankRow]) ++
      totalsRows (0 + 100) 0 0 =
      (sortedVms [windowsPaygTableRow]).flatMap
        (fun p => [windowsPaygTableRow].filter (fun r => r.vmName == p.1) ++ [blankRow]) ++
      totalsRows (0 + 100) 0 0) ∧
    ((sortedVms [windowsPaygTableRow]).map Prod.snd).Pairwise (· ≥ ·) ∧
    ((sortedVms [windowsPaygTableRow]).map Prod.fst).Nodup ∧
    ((sortedVms [windowsPaygTableRow]).map Prod.fst).Perm
      (dedupFirsts []
        (([windowsPaygTableRow].filter
          (fun r => containsSub r.description "Pay-as-you-go")).map Row.vmName)) :=
  C9_table_structure [windowsPaygTableRow] _ (0 + 100) 0 0 rfl rfl

end ARI
